import Mathlib

/-!
Verification of the nanodb guarded-view / path-directed merge core.

The definitions below are a shallow embedding of the Rust sources:
  * `Json` embeds `serde_json::Value` (numbers are modelled as integers;
    their content is irrelevant to the properties verified here, only the
    variant tag matters),
  * `PathStep` / `Tree` embed `src/trees/tree.rs`,
  * `NanoDB.*` embeds the store methods of `src/nanodb.rs` (the `RwLock`
    is an external collaborator: a store state is just the protected
    document),
  * `WriteGuardedTree.*` embeds `src/trees/tree_write_guarded.rs`.

Fallible Rust methods returning `Result<_, NanoDBError>` are embedded as
`Except NanoDBError _`; in-place mutation of `&mut self` receivers is
embedded as explicit state passing.
-/

namespace NanoDb

/-- Embeds `serde_json::Value`: the tagged union of JSON values.
Object entries are kept as an association list (serde maps have unique
keys; all operations below read/write the first entry of a key, which
coincides with map behaviour on unique-key lists). -/
inductive Json where
  | null
  | bool (b : Bool)
  | num (n : Int)
  | str (s : String)
  | arr (elems : List Json)
  | obj (entries : List (String × Json))

/-- Embeds `NanoDBError` from `src/error.rs` (payloads of the `#[from]`
variants are kept as their display strings). -/
inductive NanoDBError where
  | DeserializeFromStr (msg : String)
  | Io (msg : String)
  | RwLockReadError (msg : String)
  | RwLockWriteError (msg : String)
  | NotAnArray (loc : String)
  | LenNotDefined (loc : String)
  | NotAnObject (loc : String)
  | KeyNotFound (key : String)
  | IndexOutOfBounds (idx : Nat)
  | InvalidJSONPath
  | TypeMismatch (msg : String)
  | DefaultError
deriving DecidableEq

/-- Embeds `PathStep` from `src/trees/tree.rs`. -/
inductive PathStep where
  | key (k : String)
  | index (i : Nat)
deriving DecidableEq

/-- Embeds `serde_json::Map::get`: first (= unique) entry with the given key. -/
def objGet : List (String × Json) → String → Option Json
  | [], _ => none
  | (k', v) :: rest, k => if k' = k then some v else objGet rest k

/-- Writing through the mutable reference `map.get_mut(k)` handed out by a
serde map: replace the value stored at key `k`, leave everything else. -/
def objSet : List (String × Json) → String → Json → List (String × Json)
  | [], _, _ => []
  | (k', v) :: rest, k, w =>
    if k' = k then (k', w) :: rest else (k', v) :: objSet rest k w

/-- Embeds `serde_json::Map::insert`: overwrite the entry if the key is present,
otherwise add a new entry. -/
def objInsert : List (String × Json) → String → Json → List (String × Json)
  | [], k, w => [(k, w)]
  | (k', v) :: rest, k, w =>
    if k' = k then (k', w) :: rest else (k', v) :: objInsert rest k w

/-- Embeds `serde_json::Map::remove`. -/
def objRemove : List (String × Json) → String → List (String × Json)
  | [], _ => []
  | (k', v) :: rest, k => if k' = k then rest else (k', v) :: objRemove rest k

/-- Embeds `serde_json::Map::contains_key`. -/
def objContains (m : List (String × Json)) (k : String) : Bool :=
  (objGet m k).isSome

/-- Embeds `serde_json::Value::get(key)`: `None` on a non-object as well as on a
missing key. -/
def jsonGetKey : Json → String → Option Json
  | .obj m, k => objGet m k
  | _, _ => none

/-- Embeds the struct `Tree` of `src/trees/tree.rs`: an owned clone of a
sub-value together with the path that located it. -/
structure Tree where
  inner : Json
  path : List PathStep

namespace Tree

/-- Embeds `Tree::new`. -/
def new (value : Json) (path : List PathStep) : Tree := ⟨value, path⟩

/-- The `Display` impl of `PathStep`. -/
def stepString : PathStep → String
  | .key k => k
  | .index i => "[" ++ Nat.repr i ++ "]"

/-- Embeds `Tree::path_string`: the path as a dot-separated string. -/
def pathString (t : Tree) : String :=
  String.intercalate "." (t.path.map stepString)

/-- Embeds `Tree::get` (`src/trees/tree.rs:69`): child by key, path extended. -/
def get (t : Tree) (key : String) : Except NanoDBError Tree :=
  match t.inner with
  | .obj map =>
    match objGet map key with
    | some value => .ok ⟨value, t.path ++ [PathStep.key key]⟩
    | none => .error (.KeyNotFound key)
  | _ => .error (.NotAnObject key)

/-- Embeds `Tree::at` (`src/trees/tree.rs:97`): child by index, path extended. -/
def «at» (t : Tree) (index : Nat) : Except NanoDBError Tree :=
  match t.inner with
  | .arr a =>
    match a[index]? with
    | some value => .ok ⟨value, t.path ++ [PathStep.index index]⟩
    | none => .error (.IndexOutOfBounds index)
  | _ => .error (.NotAnArray t.pathString)

/-- Embeds `Tree::insert` (`src/trees/tree.rs:186`): serialization of the Rust
generic argument is the external serde collaborator, so the value arrives
here already as `Json`.  Returns the mutated tree (the Rust method mutates
`self` and returns a clone of it). -/
def insert (t : Tree) (key : String) (value : Json) : Except NanoDBError Tree :=
  match t.inner with
  | .obj map => .ok ⟨.obj (objInsert map key value), t.path⟩
  | _ => .error (.NotAnObject key)

/-- Embeds `Tree::remove` (`src/trees/tree.rs:210`). -/
def remove (t : Tree) (key : String) : Except NanoDBError Tree :=
  match t.inner with
  | .obj map =>
    if objContains map key then .ok ⟨.obj (objRemove map key), t.path⟩
    else .error (.KeyNotFound key)
  | _ => .error (.NotAnObject key)

/-- Embeds `Tree::remove_at` (`src/trees/tree.rs:238`). -/
def removeAt (t : Tree) (index : Nat) : Except NanoDBError Tree :=
  match t.inner with
  | .arr a =>
    if index ≥ a.length then .error (.IndexOutOfBounds index)
    else .ok ⟨.arr (a.eraseIdx index), t.path⟩
  | _ => .error (.NotAnArray t.pathString)

/-- Embeds `Tree::push` (`src/trees/tree.rs:309`). -/
def push (t : Tree) (value : Json) : Except NanoDBError Tree :=
  match t.inner with
  | .arr a => .ok ⟨.arr (a ++ [value]), t.path⟩
  | _ => .error (.NotAnArray t.pathString)

/-- Embeds `Tree::for_each` (`src/trees/tree.rs:331`); the caller-supplied
`FnMut(&mut Value)` closure is embedded as a pure transform. -/
def forEach (t : Tree) (f : Json → Json) : Except NanoDBError Tree :=
  match t.inner with
  | .arr a => .ok ⟨.arr (a.map f), t.path⟩
  | _ => .error (.NotAnArray t.pathString)

/-- Embeds `Tree::len` (`src/trees/tree.rs:350`). -/
def len (t : Tree) : Except NanoDBError Nat :=
  match t.inner with
  | .arr a => .ok a.length
  | .obj o => .ok o.length
  | _ => .error (.LenNotDefined t.pathString)

/-- Embeds `Tree::into::<i64>()`: structural decode of the inner value into an
integer via the external serde collaborator; succeeds exactly on a JSON
number and fails with `TypeMismatch` otherwise (the message text comes
from serde and is not modelled). -/
def intoInt (t : Tree) : Except NanoDBError Int :=
  match t.inner with
  | .num n => .ok n
  | _ => .error (.TypeMismatch "invalid type: expected i64")

/-- The path-walk loop shared by `Tree::merge_from`
(`src/trees/tree.rs:266`): descend `cur` along `path` step by step —
a `Key` step requires an object containing the key (else
`InvalidJSONPath`), an `Index` step requires an array (else
`InvalidJSONPath`) with the index in bounds (else `IndexOutOfBounds`) —
and, when every step resolves, replace the reached sub-value wholesale by
`v`, rebuilding the document along the spine. -/
def mergeValueAt : Json → List PathStep → Json → Except NanoDBError Json
  | _, [], v => .ok v
  | cur, .key k :: rest, v =>
    match cur with
    | .obj m =>
      match objGet m k with
      | some child =>
        match mergeValueAt child rest v with
        | .ok child' => .ok (.obj (objSet m k child'))
        | .error e => .error e
      | none => .error .InvalidJSONPath
    | _ => .error .InvalidJSONPath
  | cur, .index i :: rest, v =>
    match cur with
    | .arr a =>
      match a[i]? with
      | some child =>
        match mergeValueAt child rest v with
        | .ok child' => .ok (.arr (a.set i child'))
        | .error e => .error e
      | none => .error (.IndexOutOfBounds i)
    | _ => .error .InvalidJSONPath

/-- Embeds `Tree::merge_from` (`src/trees/tree.rs:266`): splice `other.inner`
into `self.inner` along `other.path`; on error `self` is untouched. -/
def mergeFrom (t : Tree) (other : Tree) : Except NanoDBError Tree :=
  match mergeValueAt t.inner other.path other.inner with
  | .ok j => .ok ⟨j, t.path⟩
  | .error e => .error e

end Tree

namespace NanoDB

/-- Embeds `NanoDB::get` (`src/nanodb.rs:133`): read-lock the document (the lock
is the external collaborator; a store state is the protected document),
look the key up with `Value::get`, and wrap the cloned child in a `Tree`
whose path is exactly `[Key(key)]`. -/
def get (db : Json) (key : String) : Except NanoDBError Tree :=
  match jsonGetKey db key with
  | some value => .ok ⟨value, [PathStep.key key]⟩
  | none => .error (.KeyNotFound key)

/-- Embeds `NanoDB::insert` (`src/nanodb.rs:169`): the method calls
`data.as_object_mut().unwrap()`, so on a non-object root it panics
instead of returning an error.  The panic is embedded as `none`; the
successful path returns the updated document. -/
def insert (db : Json) (key : String) (value : Json) : Option Json :=
  match db with
  | .obj m => some (.obj (objInsert m key value))
  | _ => none

/-- One stack frame of the mutable cursor of `NanoDB::merge`
(`src/nanodb.rs:211`): the cursor re-borrowed either into the entry `k`
of object `m` or into slot `i` of array `a`. -/
inductive Frame where
  | objF (m : List (String × Json)) (k : String)
  | arrF (a : List Json) (i : Nat)

/-- Writing `v` through the cursor described by a frame stack
(innermost frame first) rebuilds the whole document. -/
def plug (v : Json) : List Frame → Json
  | [] => v
  | .objF m k :: ctx => plug (.obj (objSet m k v)) ctx
  | .arrF a i :: ctx => plug (.arr (a.set i v)) ctx

/-- The `for p in path` loop of `NanoDB::merge` (`src/nanodb.rs:216`):
walk the steps in order, re-borrowing the mutable cursor (`cur` is the
value under the cursor, `ctx` the borrow spine); a `Key` step on a
non-object or an object lacking the key fails with `InvalidJSONPath`, an
`Index` step on a non-array fails with `InvalidJSONPath`, and on an array
`arr.get_mut(idx)` out of bounds fails with `IndexOutOfBounds`. -/
def walkLoop : Json → List Frame → List PathStep → Except NanoDBError (Json × List Frame)
  | cur, ctx, [] => .ok (cur, ctx)
  | cur, ctx, .key k :: rest =>
    match cur with
    | .obj m =>
      match objGet m k with
      | some child => walkLoop child (.objF m k :: ctx) rest
      | none => .error .InvalidJSONPath
    | _ => .error .InvalidJSONPath
  | cur, ctx, .index i :: rest =>
    match cur with
    | .arr a =>
      match a[i]? with
      | some child => walkLoop child (.arrF a i :: ctx) rest
      | none => .error (.IndexOutOfBounds i)
    | _ => .error .InvalidJSONPath

/-- Embeds `NanoDB::merge` (`src/nanodb.rs:211`): walk `tree.path()` with the
mutable cursor and, after exhausting all steps, perform the single write
`*current = tree.inner()`. -/
def merge (db : Json) (tree : Tree) : Except NanoDBError Json :=
  match walkLoop db [] tree.path with
  | .ok (_, ctx) => .ok (plug tree.inner ctx)
  | .error e => .error e

/-- State-transition form of `NanoDB::merge`, the `&mut self`
method: the pair (document after the call, returned error).  An early
`return Err(..)` in the source happens strictly before the unique write
`*current = tree.inner()`, so on error the locked document is the
unmodified input. -/
def mergeApply (db : Json) (tree : Tree) : Json × Option NanoDBError :=
  match merge db tree with
  | .ok d => (d, none)
  | .error e => (db, some e)

end NanoDB

/-- Embeds the struct `WriteGuardedTree` of
`src/trees/tree_write_guarded.rs`: the exclusively locked document
(`_guard`) together with the narrowed working tree. -/
structure WriteGuardedTree where
  guard : Json
  tree : Tree

namespace WriteGuardedTree

/-- Embeds `WriteGuardedTree::new` (also the state produced by
`NanoDB::update()`): the working tree is a clone of the locked document
with an empty path. -/
def new (doc : Json) : WriteGuardedTree := ⟨doc, ⟨doc, []⟩⟩

/-- Embeds `WriteGuardedTree::get` (`src/trees/tree_write_guarded.rs:59`):
narrow the working tree by a key. -/
def get (wg : WriteGuardedTree) (key : String) : Except NanoDBError WriteGuardedTree :=
  match wg.tree.get key with
  | .ok t => .ok ⟨wg.guard, t⟩
  | .error e => .error e

/-- Embeds `WriteGuardedTree::at` (`src/trees/tree_write_guarded.rs:75`):
narrow the working tree by an index. -/
def «at» (wg : WriteGuardedTree) (index : Nat) : Except NanoDBError WriteGuardedTree :=
  match wg.tree.at index with
  | .ok t => .ok ⟨wg.guard, t⟩
  | .error e => .error e

/-- Embeds `WriteGuardedTree::merge` (`src/trees/tree_write_guarded.rs:170`):
wrap a clone of the locked document in a root `Tree`, run
`Tree::merge_from` with the working tree, and on success assign the
result back through the guard; the `?` on `merge_from` returns before the
assignment, leaving the locked document untouched on error. -/
def merge (wg : WriteGuardedTree) : Except NanoDBError WriteGuardedTree :=
  match Tree.mergeFrom ⟨wg.guard, []⟩ wg.tree with
  | .ok wrapped => .ok ⟨wrapped.inner, wg.tree⟩
  | .error e => .error e

/-- State-transition form of `WriteGuardedTree::merge`, the `&mut self`
method: (state after the call, returned error). -/
def mergeApply (wg : WriteGuardedTree) : WriteGuardedTree × Option NanoDBError :=
  match wg.merge with
  | .ok wg' => (wg', none)
  | .error e => (wg, some e)

/-- Embeds `WriteGuardedTree::insert` (`src/trees/tree_write_guarded.rs:93`):
mutate the working tree, then immediately merge back into the locked
document. -/
def insert (wg : WriteGuardedTree) (key : String) (value : Json) :
    Except NanoDBError WriteGuardedTree :=
  match wg.tree.insert key value with
  | .ok t => WriteGuardedTree.merge ⟨wg.guard, t⟩
  | .error e => .error e

/-- Embeds `WriteGuardedTree::remove` (`src/trees/tree_write_guarded.rs:109`). -/
def remove (wg : WriteGuardedTree) (key : String) :
    Except NanoDBError WriteGuardedTree :=
  match wg.tree.remove key with
  | .ok t => WriteGuardedTree.merge ⟨wg.guard, t⟩
  | .error e => .error e

/-- Embeds `WriteGuardedTree::push` (`src/trees/tree_write_guarded.rs:125`). -/
def push (wg : WriteGuardedTree) (value : Json) :
    Except NanoDBError WriteGuardedTree :=
  match wg.tree.push value with
  | .ok t => WriteGuardedTree.merge ⟨wg.guard, t⟩
  | .error e => .error e

/-- Embeds `WriteGuardedTree::for_each` (`src/trees/tree_write_guarded.rs:141`). -/
def forEach (wg : WriteGuardedTree) (f : Json → Json) :
    Except NanoDBError WriteGuardedTree :=
  match wg.tree.forEach f with
  | .ok t => WriteGuardedTree.merge ⟨wg.guard, t⟩
  | .error e => .error e

end WriteGuardedTree

/-- Spec §4.4 steps 1–2, transcribed from the spec's words: resolve the
path against the document — a `Key(k)` step requires the cursor to be an
Object containing `k` (otherwise `InvalidJSONPath`), an `Index(i)` step
requires the cursor to be an Array (otherwise `InvalidJSONPath`, missing
container) with `i` in bounds (otherwise `IndexOutOfBounds`, present
container, bad index) — returning the sub-value the cursor reaches. -/
def resolvePath : Json → List PathStep → Except NanoDBError Json
  | cur, [] => .ok cur
  | cur, .key k :: rest =>
    match cur with
    | .obj m =>
      match objGet m k with
      | some child => resolvePath child rest
      | none => .error .InvalidJSONPath
    | _ => .error .InvalidJSONPath
  | cur, .index i :: rest =>
    match cur with
    | .arr a =>
      match a[i]? with
      | some child => resolvePath child rest
      | none => .error (.IndexOutOfBounds i)
    | _ => .error .InvalidJSONPath

/-- Spec §4.4 step 3, transcribed from the spec's words: replace the
sub-value at the path wholesale by `v` (structural replacement, not a
deep merge), leaving the document unchanged where the path does not
resolve. -/
def replacePath : Json → List PathStep → Json → Json
  | _, [], v => v
  | .obj m, .key k :: rest, v =>
    match objGet m k with
    | some child => .obj (objSet m k (replacePath child rest v))
    | none => .obj m
  | .arr a, .index i :: rest, v =>
    match a[i]? with
    | some child => .arr (a.set i (replacePath child rest v))
    | none => .arr a
  | cur, _, _ => cur

/-- A sequence of successful `Tree::get` / `Tree::at` navigations,
driven by a list of steps. -/
def navTree : Tree → List PathStep → Except NanoDBError Tree
  | t, [] => .ok t
  | t, .key k :: rest =>
    match t.get k with
    | .ok t' => navTree t' rest
    | .error e => .error e
  | t, .index i :: rest =>
    match t.at i with
    | .ok t' => navTree t' rest
    | .error e => .error e

/-- A navigation sequence started from the store: `NanoDB::get` for the
first (key) step, then `Tree::get` / `Tree::at` for the rest. -/
def navStore (db : Json) (k : String) (rest : List PathStep) :
    Except NanoDBError Tree :=
  match NanoDB.get db k with
  | .ok t => navTree t rest
  | .error e => .error e

/-- The critical section of one task of `tests/multi_threaded.rs`
(`async_tests`): acquire the write guard (`db_clone.update().await`),
read the integer at `"counter"` from a clone of the guard's tree, and
write back `counter + 1` through `writer.insert` (which merges back
synchronously).  The whole read-modify-write executes under one
continuous exclusive lock hold, so a schedule of the concurrent tasks is
a sequential composition of these transitions. -/
def incrTask (doc : Json) : Except NanoDBError Json :=
  let wg := WriteGuardedTree.new doc
  match (wg.tree.get "counter").bind Tree.intoInt with
  | .ok c =>
    match wg.insert "counter" (.num (c + 1)) with
    | .ok wg' => .ok wg'.guard
    | .error e => .error e
  | .error e => .error e

/-- Sequential composition of `n` counter-increment tasks: by RwLock
exclusion at most one write guard is outstanding at any instant, so any
schedule of `n` concurrent (identical) tasks executes as this chain. -/
def runTasks : Nat → Json → Except NanoDBError Json
  | 0, doc => .ok doc
  | n + 1, doc =>
    match incrTask doc with
    | .ok doc' => runTasks n doc'
    | .error e => .error e

/-! ### Association-list and list helper lemmas -/

lemma objGet_objSet_self : ∀ (m : List (String × Json)) (k : String) (c w : Json),
    objGet m k = some c → objGet (objSet m k w) k = some w
  | [], _, _, _, h => by simp [objGet] at h
  | (k', v) :: rest, k, c, w, h => by
    by_cases hk : k' = k
    · simp [objGet, objSet, hk]
    · simp only [objGet, objSet, hk, if_false, if_neg hk] at h ⊢
      exact objGet_objSet_self rest k c w h

lemma objSet_objSet : ∀ (m : List (String × Json)) (k : String) (a b : Json),
    objSet (objSet m k a) k b = objSet m k b
  | [], _, _, _ => rfl
  | (k', v) :: rest, k, a, b => by
    by_cases hk : k' = k <;>
      simp [objSet, hk, objSet_objSet rest k a b]

lemma getq_set_self : ∀ (l : List Json) (i : Nat) (c w : Json),
    l[i]? = some c → (l.set i w)[i]? = some w
  | [], i, _, _, h => by simp at h
  | _ :: _, 0, _, _, _ => by simp [List.set]
  | x :: rest, i + 1, c, w, h => by
    simp only [List.getElem?_cons_succ] at h
    simpa [List.set] using getq_set_self rest i c w h

lemma listSet_listSet : ∀ (l : List Json) (i : Nat) (a b : Json),
    (l.set i a).set i b = l.set i b
  | [], _, _, _ => rfl
  | _ :: _, 0, _, _ => rfl
  | x :: rest, i + 1, a, b => by
    simp [List.set, listSet_listSet rest i a b]

/-! ### The merge walk versus the spec's resolve-then-replace reading -/

lemma mergeValueAt_eq_spec : ∀ (p : List PathStep) (cur v : Json),
    Tree.mergeValueAt cur p v
      = (resolvePath cur p).map (fun _ => replacePath cur p v)
  | [], cur, v => by
    simp [Tree.mergeValueAt, resolvePath, replacePath, Except.map]
  | .key k :: rest, cur, v => by
    cases cur <;>
      simp only [Tree.mergeValueAt, resolvePath, replacePath, Except.map]
    case obj m =>
      cases hg : objGet m k with
      | none => simp [hg, Except.map]
      | some child =>
        have ih := mergeValueAt_eq_spec rest child v
        cases hr : resolvePath child rest with
        | ok u => simp [hg, ih, hr, Except.map]
        | error e => simp [hg, ih, hr, Except.map]
  | .index i :: rest, cur, v => by
    cases cur <;>
      simp only [Tree.mergeValueAt, resolvePath, replacePath, Except.map]
    case arr a =>
      cases hg : a[i]? with
      | none => simp [hg, Except.map]
      | some child =>
        have ih := mergeValueAt_eq_spec rest child v
        cases hr : resolvePath child rest with
        | ok u => simp [hg, ih, hr, Except.map]
        | error e => simp [hg, ih, hr, Except.map]

lemma walkLoop_mergeValueAt :
    ∀ (p : List PathStep) (cur : Json) (ctx : List NanoDB.Frame) (v : Json),
    (NanoDB.walkLoop cur ctx p).map (fun pr => NanoDB.plug v pr.2)
      = (Tree.mergeValueAt cur p v).map (fun j => NanoDB.plug j ctx)
  | [], cur, ctx, v => by
    simp [NanoDB.walkLoop, Tree.mergeValueAt, Except.map]
  | .key k :: rest, cur, ctx, v => by
    cases cur <;>
      simp only [NanoDB.walkLoop, Tree.mergeValueAt, Except.map]
    case obj m =>
      cases hg : objGet m k with
      | none => simp [hg, Except.map]
      | some child =>
        have ih := walkLoop_mergeValueAt rest child (.objF m k :: ctx) v
        cases hm : Tree.mergeValueAt child rest v with
        | ok j =>
          simp only [hg, hm, Except.map] at ih ⊢
          simpa [NanoDB.plug] using ih
        | error e =>
          simp only [hg, hm, Except.map] at ih ⊢
          simpa [NanoDB.plug] using ih
  | .index i :: rest, cur, ctx, v => by
    cases cur <;>
      simp only [NanoDB.walkLoop, Tree.mergeValueAt, Except.map]
    case arr a =>
      cases hg : a[i]? with
      | none => simp [hg, Except.map]
      | some child =>
        have ih := walkLoop_mergeValueAt rest child (.arrF a i :: ctx) v
        cases hm : Tree.mergeValueAt child rest v with
        | ok j =>
          simp only [hg, hm, Except.map] at ih ⊢
          simpa [NanoDB.plug] using ih
        | error e =>
          simp only [hg, hm, Except.map] at ih ⊢
          simpa [NanoDB.plug] using ih

/-- The cursor-walk implementation of `NanoDB::merge` computes the same
function as the walk of `Tree::merge_from`. -/
lemma merge_eq_mergeValueAt (db : Json) (t : Tree) :
    NanoDB.merge db t = Tree.mergeValueAt db t.path t.inner := by
  have h := walkLoop_mergeValueAt t.path db [] t.inner
  cases hw : NanoDB.walkLoop db [] t.path with
  | ok pr =>
    cases hm : Tree.mergeValueAt db t.path t.inner with
    | ok j =>
      simp only [hw, hm, Except.map, NanoDB.plug] at h
      simp [NanoDB.merge, hw, h]
    | error e => simp [hw, hm, Except.map] at h
  | error e =>
    cases hm : Tree.mergeValueAt db t.path t.inner with
    | ok j => simp [hw, hm, Except.map] at h
    | error e' =>
      simp only [hw, hm, Except.map, Except.error.injEq] at h
      simp [NanoDB.merge, hw, h]

/-- Characterisation of `NanoDB::merge` by the spec's resolve-then-replace
decomposition. -/
lemma merge_char (db : Json) (t : Tree) :
    NanoDB.merge db t
      = (resolvePath db t.path).map (fun _ => replacePath db t.path t.inner) := by
  rw [merge_eq_mergeValueAt, mergeValueAt_eq_spec]

/-! ### Resolution after replacement -/

lemma resolvePath_replacePath : ∀ (p : List PathStep) (d u v : Json),
    resolvePath d p = .ok u → resolvePath (replacePath d p v) p = .ok v
  | [], _, _, _, _ => by simp [resolvePath, replacePath]
  | .key k :: rest, d, u, v, h => by
    cases d with
    | obj m =>
      cases hg : objGet m k with
      | none => simp [resolvePath, hg] at h
      | some child =>
        have h' : resolvePath child rest = .ok u := by
          simpa [resolvePath, hg] using h
        have ih := resolvePath_replacePath rest child u v h'
        have hset := objGet_objSet_self m k child (replacePath child rest v) hg
        simp [replacePath, resolvePath, hg, hset, ih]
    | null => simp [resolvePath] at h
    | bool b => simp [resolvePath] at h
    | num n => simp [resolvePath] at h
    | str s => simp [resolvePath] at h
    | arr a => simp [resolvePath] at h
  | .index i :: rest, d, u, v, h => by
    cases d with
    | arr a =>
      cases hg : a[i]? with
      | none => simp [resolvePath, hg] at h
      | some child =>
        have h' : resolvePath child rest = .ok u := by
          simpa [resolvePath, hg] using h
        have ih := resolvePath_replacePath rest child u v h'
        have hset := getq_set_self a i child (replacePath child rest v) hg
        simp [replacePath, resolvePath, hg, hset, ih]
    | null => simp [resolvePath] at h
    | bool b => simp [resolvePath] at h
    | num n => simp [resolvePath] at h
    | str s => simp [resolvePath] at h
    | obj m => simp [resolvePath] at h

lemma replacePath_replacePath : ∀ (p : List PathStep) (d u v : Json),
    resolvePath d p = .ok u →
    replacePath (replacePath d p v) p v = replacePath d p v
  | [], _, _, _, _ => by simp [replacePath]
  | .key k :: rest, d, u, v, h => by
    cases d with
    | obj m =>
      cases hg : objGet m k with
      | none => simp [resolvePath, hg] at h
      | some child =>
        have h' : resolvePath child rest = .ok u := by
          simpa [resolvePath, hg] using h
        have ih := replacePath_replacePath rest child u v h'
        have hset := objGet_objSet_self m k child (replacePath child rest v) hg
        simp [replacePath, hg, hset, ih, objSet_objSet]
    | null => simp [resolvePath] at h
    | bool b => simp [resolvePath] at h
    | num n => simp [resolvePath] at h
    | str s => simp [resolvePath] at h
    | arr a => simp [resolvePath] at h
  | .index i :: rest, d, u, v, h => by
    cases d with
    | arr a =>
      cases hg : a[i]? with
      | none => simp [resolvePath, hg] at h
      | some child =>
        have h' : resolvePath child rest = .ok u := by
          simpa [resolvePath, hg] using h
        have ih := replacePath_replacePath rest child u v h'
        have hset := getq_set_self a i child (replacePath child rest v) hg
        simp [replacePath, hg, hset, ih, listSet_listSet]
    | null => simp [resolvePath] at h
    | bool b => simp [resolvePath] at h
    | num n => simp [resolvePath] at h
    | str s => simp [resolvePath] at h
    | obj m => simp [resolvePath] at h

/-! ### Navigation versus path resolution -/

lemma navTree_sound : ∀ (steps : List PathStep) (j : Json) (pth : List PathStep) (t' : Tree),
    navTree ⟨j, pth⟩ steps = .ok t' →
    resolvePath j steps = .ok t'.inner ∧ t'.path = pth ++ steps
  | [], j, pth, t', h => by
    simp only [navTree, Except.ok.injEq] at h
    subst h
    simp [resolvePath]
  | .key k :: rest, j, pth, t', h => by
    cases j with
    | obj m =>
      cases hg : objGet m k with
      | none => simp [navTree, Tree.get, hg] at h
      | some child =>
        have h' : navTree ⟨child, pth ++ [PathStep.key k]⟩ rest = .ok t' := by
          simpa [navTree, Tree.get, hg] using h
        have ih := navTree_sound rest child (pth ++ [PathStep.key k]) t' h'
        refine ⟨by simp [resolvePath, hg, ih.1], ?_⟩
        rw [ih.2]
        simp
    | null => simp [navTree, Tree.get] at h
    | bool b => simp [navTree, Tree.get] at h
    | num n => simp [navTree, Tree.get] at h
    | str s => simp [navTree, Tree.get] at h
    | arr a => simp [navTree, Tree.get] at h
  | .index i :: rest, j, pth, t', h => by
    cases j with
    | arr a =>
      cases hg : a[i]? with
      | none => simp [navTree, Tree.at, hg] at h
      | some child =>
        have h' : navTree ⟨child, pth ++ [PathStep.index i]⟩ rest = .ok t' := by
          simpa [navTree, Tree.at, hg] using h
        have ih := navTree_sound rest child (pth ++ [PathStep.index i]) t' h'
        refine ⟨by simp [resolvePath, hg, ih.1], ?_⟩
        rw [ih.2]
        simp
    | null => simp [navTree, Tree.at] at h
    | bool b => simp [navTree, Tree.at] at h
    | num n => simp [navTree, Tree.at] at h
    | str s => simp [navTree, Tree.at] at h
    | obj m => simp [navTree, Tree.at] at h

lemma navTree_complete : ∀ (steps : List PathStep) (j : Json) (pth : List PathStep) (u : Json),
    resolvePath j steps = .ok u → navTree ⟨j, pth⟩ steps = .ok ⟨u, pth ++ steps⟩
  | [], j, pth, u, h => by
    simp only [resolvePath, Except.ok.injEq] at h
    subst h
    simp [navTree]
  | .key k :: rest, j, pth, u, h => by
    cases j with
    | obj m =>
      cases hg : objGet m k with
      | none => simp [resolvePath, hg] at h
      | some child =>
        have h' : resolvePath child rest = .ok u := by
          simpa [resolvePath, hg] using h
        have ih := navTree_complete rest child (pth ++ [PathStep.key k]) u h'
        simp only [navTree, Tree.get, hg, ih]
        simp
    | null => simp [resolvePath] at h
    | bool b => simp [resolvePath] at h
    | num n => simp [resolvePath] at h
    | str s => simp [resolvePath] at h
    | arr a => simp [resolvePath] at h
  | .index i :: rest, j, pth, u, h => by
    cases j with
    | arr a =>
      cases hg : a[i]? with
      | none => simp [resolvePath, hg] at h
      | some child =>
        have h' : resolvePath child rest = .ok u := by
          simpa [resolvePath, hg] using h
        have ih := navTree_complete rest child (pth ++ [PathStep.index i]) u h'
        simp only [navTree, Tree.at, hg, ih]
        simp
    | null => simp [resolvePath] at h
    | bool b => simp [resolvePath] at h
    | num n => simp [resolvePath] at h
    | str s => simp [resolvePath] at h
    | obj m => simp [resolvePath] at h

lemma navStore_sound (db : Json) (k : String) (rest : List PathStep) (t : Tree)
    (h : navStore db k rest = .ok t) :
    resolvePath db (PathStep.key k :: rest) = .ok t.inner ∧
      t.path = PathStep.key k :: rest := by
  cases db with
  | obj m =>
    cases hg : objGet m k with
    | none => simp [navStore, NanoDB.get, jsonGetKey, hg] at h
    | some child =>
      have h' : navTree ⟨child, [PathStep.key k]⟩ rest = .ok t := by
        simpa [navStore, NanoDB.get, jsonGetKey, hg] using h
      have hs := navTree_sound rest child [PathStep.key k] t h'
      exact ⟨by simp [resolvePath, hg, hs.1], by simpa using hs.2⟩
  | null => simp [navStore, NanoDB.get, jsonGetKey] at h
  | bool b => simp [navStore, NanoDB.get, jsonGetKey] at h
  | num n => simp [navStore, NanoDB.get, jsonGetKey] at h
  | str s => simp [navStore, NanoDB.get, jsonGetKey] at h
  | arr a => simp [navStore, NanoDB.get, jsonGetKey] at h

lemma navStore_complete (db : Json) (k : String) (rest : List PathStep) (u : Json)
    (h : resolvePath db (PathStep.key k :: rest) = .ok u) :
    navStore db k rest = .ok ⟨u, PathStep.key k :: rest⟩ := by
  cases db with
  | obj m =>
    cases hg : objGet m k with
    | none => simp [resolvePath, hg] at h
    | some child =>
      have h' : resolvePath child rest = .ok u := by
        simpa [resolvePath, hg] using h
      have hc := navTree_complete rest child [PathStep.key k] u h'
      simpa [navStore, NanoDB.get, jsonGetKey, hg] using hc
  | null => simp [resolvePath] at h
  | bool b => simp [resolvePath] at h
  | num n => simp [resolvePath] at h
  | str s => simp [resolvePath] at h
  | arr a => simp [resolvePath] at h

/-! ### Inversion facts about the `Tree` mutations -/

lemma insert_ok_path (t : Tree) (k : String) (v : Json) (t' : Tree)
    (h : Tree.insert t k v = .ok t') : t'.path = t.path := by
  cases ht : t.inner <;> simp [Tree.insert, ht] at h
  case obj m => subst h; rfl

lemma remove_ok_path (t : Tree) (k : String) (t' : Tree)
    (h : Tree.remove t k = .ok t') : t'.path = t.path := by
  cases ht : t.inner <;> simp [Tree.remove, ht] at h
  case obj m =>
    by_cases hc : objContains m k
    · simp [hc] at h
      subst h
      rfl
    · simp [hc] at h

lemma push_ok_path (t : Tree) (v : Json) (t' : Tree)
    (h : Tree.push t v = .ok t') : t'.path = t.path := by
  cases ht : t.inner <;> simp [Tree.push, ht] at h
  case arr a => subst h; rfl

lemma forEach_ok_path (t : Tree) (f : Json → Json) (t' : Tree)
    (h : Tree.forEach t f = .ok t') : t'.path = t.path := by
  cases ht : t.inner <;> simp [Tree.forEach, ht] at h
  case arr a => subst h; rfl

/-- A successful `WriteGuardedTree::merge` replaces, in the locked
document, the sub-value at the working tree's path by the working tree's
value, and keeps the working tree. -/
lemma wg_merge_ok (g : Json) (t : Tree) (st' : WriteGuardedTree)
    (h : WriteGuardedTree.merge ⟨g, t⟩ = .ok st') :
    st' = ⟨replacePath g t.path t.inner, t⟩ := by
  unfold WriteGuardedTree.merge Tree.mergeFrom at h
  rw [mergeValueAt_eq_spec] at h
  cases hr : resolvePath g t.path with
  | ok u =>
    simp [hr, Except.map] at h
    exact h.symm
  | error e => simp [hr, Except.map] at h

/-! ### The counter test of `tests/multi_threaded.rs` -/

lemma incrTask_step (c : Int) :
    incrTask (.obj [("counter", .num c)])
      = .ok (.obj [("counter", .num (c + 1))]) := rfl

lemma runTasks_counter : ∀ (n : Nat) (c : Int),
    runTasks n (.obj [("counter", .num c)])
      = .ok (.obj [("counter", .num (c + n))])
  | 0, c => by simp [runTasks]
  | n + 1, c => by
    have ih := runTasks_counter n (c + 1)
    have harith : c + 1 + (n : Int) = c + ((n : Nat) + 1 : Nat) := by
      push_cast
      ring
    rw [runTasks, incrTask_step]
    simp only []
    rw [ih, harith]

/-! ## Claim theorems -/

/-- C1: merge walks the recorded path in order from the document root —
a `Key(k)` step on a non-Object or an Object lacking `k` fails with
`InvalidJSONPath`, an `Index(i)` step on a non-Array fails with
`InvalidJSONPath`, an `Index(i)` step on an Array of length ≤ i fails
with `IndexOutOfBounds` — and if every step resolves, the reached
sub-value is replaced wholesale by the tree's value and the operation
succeeds.  Stated as: `NanoDB::merge` equals the spec-transcribed
resolve-then-replace decomposition (`resolvePath` carries exactly the
error discipline above, `replacePath` the wholesale structural
replacement). -/
theorem merge_walks_path_and_replaces_wholesale (db : Json) (t t0 : Tree) :
    NanoDB.merge db t
      = (resolvePath db t.path).map (fun _ => replacePath db t.path t.inner) ∧
    Tree.mergeFrom t0 t
      = (resolvePath t0.inner t.path).map
          (fun _ => Tree.mk (replacePath t0.inner t.path t.inner) t0.path) := by
  refine ⟨merge_char db t, ?_⟩
  unfold Tree.mergeFrom
  rw [mergeValueAt_eq_spec]
  cases hr : resolvePath t0.inner t.path <;> simp [hr, Except.map]

/-- C2: whenever the merge-back returns an error (for `NanoDB::merge` and
for `WriteGuardedTree::merge` alike), the protected document is left
exactly in its prior state — fail-fast, all-or-nothing. -/
theorem failed_merge_leaves_document_unchanged :
    (∀ (db : Json) (t : Tree) (e : NanoDBError),
      (NanoDB.mergeApply db t).2 = some e → (NanoDB.mergeApply db t).1 = db) ∧
    (∀ (wg : WriteGuardedTree) (e : NanoDBError),
      (WriteGuardedTree.mergeApply wg).2 = some e →
        (WriteGuardedTree.mergeApply wg).1.guard = wg.guard) := by
  constructor
  · intro db t e h
    unfold NanoDB.mergeApply at h ⊢
    cases hm : NanoDB.merge db t <;> simp [hm] at h ⊢
  · intro wg e h
    unfold WriteGuardedTree.mergeApply at h ⊢
    cases hm : wg.merge <;> simp [hm] at h ⊢

/-- Witness for C2: a merge whose one-step path misses (`{}` walked with
`Key("x")`) fails with `InvalidJSONPath` and leaves the document `{}`. -/
theorem failed_merge_leaves_document_unchanged_witness :
    (NanoDB.mergeApply (.obj []) ⟨.null, [PathStep.key "x"]⟩).2
        = some .InvalidJSONPath ∧
    (NanoDB.mergeApply (.obj []) ⟨.null, [PathStep.key "x"]⟩).1 = .obj [] ∧
    (WriteGuardedTree.mergeApply ⟨.obj [], ⟨.null, [PathStep.key "x"]⟩⟩).2
        = some .InvalidJSONPath ∧
    (WriteGuardedTree.mergeApply ⟨.obj [], ⟨.null, [PathStep.key "x"]⟩⟩).1.guard
        = .obj [] :=
  ⟨rfl, failed_merge_leaves_document_unchanged.1 (.obj [])
      ⟨.null, [PathStep.key "x"]⟩ .InvalidJSONPath rfl,
    rfl, failed_merge_leaves_document_unchanged.2
      ⟨.obj [], ⟨.null, [PathStep.key "x"]⟩⟩ .InvalidJSONPath rfl⟩

/-- C6: merging a tree whose recorded path is empty succeeds and replaces
the entire document by the tree's value — both for `NanoDB::merge` and
for `Tree::merge_from`. -/
theorem empty_path_merge_replaces_whole_document (db v : Json) (t : Tree) :
    NanoDB.merge db ⟨v, []⟩ = .ok v ∧
    Tree.mergeFrom t ⟨v, []⟩ = .ok ⟨v, t.path⟩ :=
  ⟨rfl, rfl⟩

/-- C8: if merging a tree succeeds, merging the same unchanged tree a
second time also succeeds and produces the same final document. -/
theorem merge_idempotent (db d1 : Json) (t : Tree)
    (h : NanoDB.merge db t = .ok d1) : NanoDB.merge d1 t = .ok d1 := by
  rw [merge_char] at h
  cases hr : resolvePath db t.path with
  | error e => simp [hr, Except.map] at h
  | ok u =>
    simp only [hr, Except.map] at h
    cases h
    rw [merge_char]
    rw [resolvePath_replacePath t.path db u t.inner hr]
    simp [Except.map, replacePath_replacePath t.path db u t.inner hr]

/-- Witness for C8: merging `5` at path `a` into `{"a": null}` gives
`{"a": 5}`, and re-merging gives the same document. -/
theorem merge_idempotent_witness :
    NanoDB.merge (.obj [("a", .null)]) ⟨.num 5, [PathStep.key "a"]⟩
        = .ok (.obj [("a", .num 5)]) ∧
    NanoDB.merge (.obj [("a", .num 5)]) ⟨.num 5, [PathStep.key "a"]⟩
        = .ok (.obj [("a", .num 5)]) :=
  ⟨rfl, merge_idempotent (.obj [("a", .null)]) (.obj [("a", .num 5)])
    ⟨.num 5, [PathStep.key "a"]⟩ rfl⟩

/-- C10: the two merge implementations agree — the clone / `merge_from` /
assign-back path of `WriteGuardedTree::merge` yields exactly the same
resulting document and the same error outcome as the in-place cursor walk
of `NanoDB::merge`. -/
theorem merge_implementations_agree (d : Json) (t : Tree) :
    (WriteGuardedTree.merge ⟨d, t⟩).map (fun wg => wg.guard)
      = NanoDB.merge d t := by
  unfold WriteGuardedTree.merge Tree.mergeFrom
  rw [merge_eq_mergeValueAt]
  cases hm : Tree.mergeValueAt d t.path t.inner <;> simp [hm, Except.map]

/-- C7: `n` counter-increment tasks — each one acquiring the exclusive
write guard, reading `"counter"` and writing back `counter + 1` inside
one continuous lock hold — leave `"counter"` equal to exactly `n` when
started from `{"counter": 0}`; the RwLock admits at most one outstanding
write guard, so any schedule of the concurrent tasks executes as this
sequential chain.  The `n = 10` instance of the test is included. -/
theorem concurrent_counter_increments_exact (n : Nat) :
    runTasks n (.obj [("counter", .num 0)])
        = .ok (.obj [("counter", .num n)]) ∧
    runTasks 10 (.obj [("counter", .num 0)])
        = .ok (.obj [("counter", .num 10)]) := by
  constructor
  · have := runTasks_counter n 0
    simpa using this
  · have := runTasks_counter 10 0
    simpa using this

/-- C3: every mutating call of the write-guarded tree (`insert`,
`remove`, `push`, `for_each`) that returns `Ok` has already, at the
moment it returns, spliced the mutated narrowed view into the
lock-protected document at the narrowed path (merge-back is synchronous,
performed inside the call). -/
theorem wg_mutations_merge_back_synchronously :
    (∀ (wg : WriteGuardedTree) (k : String) (v : Json) (wg' : WriteGuardedTree),
        WriteGuardedTree.insert wg k v = .ok wg' →
        wg'.tree.path = wg.tree.path ∧
        wg'.guard = replacePath wg.guard wg'.tree.path wg'.tree.inner) ∧
    (∀ (wg : WriteGuardedTree) (k : String) (wg' : WriteGuardedTree),
        WriteGuardedTree.remove wg k = .ok wg' →
        wg'.tree.path = wg.tree.path ∧
        wg'.guard = replacePath wg.guard wg'.tree.path wg'.tree.inner) ∧
    (∀ (wg : WriteGuardedTree) (v : Json) (wg' : WriteGuardedTree),
        WriteGuardedTree.push wg v = .ok wg' →
        wg'.tree.path = wg.tree.path ∧
        wg'.guard = replacePath wg.guard wg'.tree.path wg'.tree.inner) ∧
    (∀ (wg : WriteGuardedTree) (f : Json → Json) (wg' : WriteGuardedTree),
        WriteGuardedTree.forEach wg f = .ok wg' →
        wg'.tree.path = wg.tree.path ∧
        wg'.guard = replacePath wg.guard wg'.tree.path wg'.tree.inner) := by
  refine ⟨?_, ?_, ?_, ?_⟩
  · intro wg k v wg' h
    unfold WriteGuardedTree.insert at h
    cases ht : wg.tree.insert k v with
    | error e => rw [ht] at h; cases h
    | ok t =>
      rw [ht] at h
      obtain rfl := wg_merge_ok wg.guard t wg' h
      exact ⟨insert_ok_path wg.tree k v t ht, rfl⟩
  · intro wg k wg' h
    unfold WriteGuardedTree.remove at h
    cases ht : wg.tree.remove k with
    | error e => rw [ht] at h; cases h
    | ok t =>
      rw [ht] at h
      obtain rfl := wg_merge_ok wg.guard t wg' h
      exact ⟨remove_ok_path wg.tree k t ht, rfl⟩
  · intro wg v wg' h
    unfold WriteGuardedTree.push at h
    cases ht : wg.tree.push v with
    | error e => rw [ht] at h; cases h
    | ok t =>
      rw [ht] at h
      obtain rfl := wg_merge_ok wg.guard t wg' h
      exact ⟨push_ok_path wg.tree v t ht, rfl⟩
  · intro wg f wg' h
    unfold WriteGuardedTree.forEach at h
    cases ht : wg.tree.forEach f with
    | error e => rw [ht] at h; cases h
    | ok t =>
      rw [ht] at h
      obtain rfl := wg_merge_ok wg.guard t wg' h
      exact ⟨forEach_ok_path wg.tree f t ht, rfl⟩

/-- Witness for C3: concrete successful `insert`, `remove`, `push` and
`for_each` calls on guards narrowed to `"a"`, each leaving the guarded
document with the mutation spliced in at that path. -/
theorem wg_mutations_merge_back_synchronously_witness :
    (WriteGuardedTree.insert
        (WriteGuardedTree.mk (.obj [("a", .obj [])])
          (Tree.mk (.obj []) [PathStep.key "a"])) "k" .null
      = .ok (WriteGuardedTree.mk (.obj [("a", .obj [("k", .null)])])
          (Tree.mk (.obj [("k", .null)]) [PathStep.key "a"]))) ∧
    ((WriteGuardedTree.mk (.obj [("a", .obj [("k", .null)])])
          (Tree.mk (.obj [("k", .null)]) [PathStep.key "a"])).tree.path
        = (WriteGuardedTree.mk (.obj [("a", .obj [])])
          (Tree.mk (.obj []) [PathStep.key "a"])).tree.path ∧
      (WriteGuardedTree.mk (.obj [("a", .obj [("k", .null)])])
          (Tree.mk (.obj [("k", .null)]) [PathStep.key "a"])).guard
        = replacePath (WriteGuardedTree.mk (.obj [("a", .obj [])])
            (Tree.mk (.obj []) [PathStep.key "a"])).guard
          (WriteGuardedTree.mk (.obj [("a", .obj [("k", .null)])])
            (Tree.mk (.obj [("k", .null)]) [PathStep.key "a"])).tree.path
          (WriteGuardedTree.mk (.obj [("a", .obj [("k", .null)])])
            (Tree.mk (.obj [("k", .null)]) [PathStep.key "a"])).tree.inner) ∧
    (WriteGuardedTree.remove
        (WriteGuardedTree.mk (.obj [("a", .obj [("k", .null)])])
          (Tree.mk (.obj [("k", .null)]) [PathStep.key "a"])) "k"
      = .ok (WriteGuardedTree.mk (.obj [("a", .obj [])])
          (Tree.mk (.obj []) [PathStep.key "a"]))) ∧
    ((WriteGuardedTree.mk (.obj [("a", .obj [])])
          (Tree.mk (.obj []) [PathStep.key "a"])).tree.path
        = (WriteGuardedTree.mk (.obj [("a", .obj [("k", .null)])])
          (Tree.mk (.obj [("k", .null)]) [PathStep.key "a"])).tree.path ∧
      (WriteGuardedTree.mk (.obj [("a", .obj [])])
          (Tree.mk (.obj []) [PathStep.key "a"])).guard
        = replacePath (WriteGuardedTree.mk (.obj [("a", .obj [("k", .null)])])
            (Tree.mk (.obj [("k", .null)]) [PathStep.key "a"])).guard
          (WriteGuardedTree.mk (.obj [("a", .obj [])])
            (Tree.mk (.obj []) [PathStep.key "a"])).tree.path
          (WriteGuardedTree.mk (.obj [("a", .obj [])])
            (Tree.mk (.obj []) [PathStep.key "a"])).tree.inner) ∧
    (WriteGuardedTree.push
        (WriteGuardedTree.mk (.obj [("a", .arr [])])
          (Tree.mk (.arr []) [PathStep.key "a"])) .null
      = .ok (WriteGuardedTree.mk (.obj [("a", .arr [.null])])
          (Tree.mk (.arr [.null]) [PathStep.key "a"]))) ∧
    ((WriteGuardedTree.mk (.obj [("a", .arr [.null])])
          (Tree.mk (.arr [.null]) [PathStep.key "a"])).tree.path
        = (WriteGuardedTree.mk (.obj [("a", .arr [])])
          (Tree.mk (.arr []) [PathStep.key "a"])).tree.path ∧
      (WriteGuardedTree.mk (.obj [("a", .arr [.null])])
          (Tree.mk (.arr [.null]) [PathStep.key "a"])).guard
        = replacePath (WriteGuardedTree.mk (.obj [("a", .arr [])])
            (Tree.mk (.arr []) [PathStep.key "a"])).guard
          (WriteGuardedTree.mk (.obj [("a", .arr [.null])])
            (Tree.mk (.arr [.null]) [PathStep.key "a"])).tree.path
          (WriteGuardedTree.mk (.obj [("a", .arr [.null])])
            (Tree.mk (.arr [.null]) [PathStep.key "a"])).tree.inner) ∧
    (WriteGuardedTree.forEach
        (WriteGuardedTree.mk (.obj [("a", .arr [])])
          (Tree.mk (.arr []) [PathStep.key "a"])) (fun j => j)
      = .ok (WriteGuardedTree.mk (.obj [("a", .arr [])])
          (Tree.mk (.arr []) [PathStep.key "a"]))) ∧
    ((WriteGuardedTree.mk (.obj [("a", .arr [])])
          (Tree.mk (.arr []) [PathStep.key "a"])).tree.path
        = (WriteGuardedTree.mk (.obj [("a", .arr [])])
          (Tree.mk (.arr []) [PathStep.key "a"])).tree.path ∧
      (WriteGuardedTree.mk (.obj [("a", .arr [])])
          (Tree.mk (.arr []) [PathStep.key "a"])).guard
        = replacePath (WriteGuardedTree.mk (.obj [("a", .arr [])])
            (Tree.mk (.arr []) [PathStep.key "a"])).guard
          (WriteGuardedTree.mk (.obj [("a", .arr [])])
            (Tree.mk (.arr []) [PathStep.key "a"])).tree.path
          (WriteGuardedTree.mk (.obj [("a", .arr [])])
            (Tree.mk (.arr []) [PathStep.key "a"])).tree.inner) :=
  ⟨rfl,
    wg_mutations_merge_back_synchronously.1 _ "k" .null _ rfl,
    rfl,
    wg_mutations_merge_back_synchronously.2.1 _ "k" _ rfl,
    rfl,
    wg_mutations_merge_back_synchronously.2.2.1 _ .null _ rfl,
    rfl,
    wg_mutations_merge_back_synchronously.2.2.2 _ (fun j => j) _ rfl⟩

/-- C4: a tree obtained from the store by successful navigation, mutated
by `insert`, merges back successfully, and re-navigating the same
key/index sequence on the new document yields exactly the mutated
value. -/
theorem store_round_trip (db : Json) (k : String) (rest : List PathStep)
    (t : Tree) (k2 : String) (v : Json) (t2 : Tree)
    (hnav : navStore db k rest = .ok t)
    (hins : Tree.insert t k2 v = .ok t2) :
    ∃ d2, NanoDB.merge db t2 = .ok d2 ∧
      navStore d2 k rest = .ok ⟨t2.inner, PathStep.key k :: rest⟩ := by
  obtain ⟨hres, hpath⟩ := navStore_sound db k rest t hnav
  have hpath2 : t2.path = PathStep.key k :: rest := by
    rw [insert_ok_path t k2 v t2 hins, hpath]
  refine ⟨replacePath db (PathStep.key k :: rest) t2.inner, ?_, ?_⟩
  · rw [merge_char, hpath2, hres]
    simp [Except.map]
  · have hres2 :=
      resolvePath_replacePath (PathStep.key k :: rest) db t.inner t2.inner hres
    exact navStore_complete _ k rest t2.inner hres2

/-- Witness for C4: navigate `{"a": {"b": 1}}` to `"a"`, insert
`"c" := 2` into the view, merge back and re-navigate. -/
theorem store_round_trip_witness :
    navStore (.obj [("a", .obj [("b", .num 1)])]) "a" []
        = .ok (Tree.mk (.obj [("b", .num 1)]) [PathStep.key "a"]) ∧
    Tree.insert (Tree.mk (.obj [("b", .num 1)]) [PathStep.key "a"]) "c" (.num 2)
        = .ok (Tree.mk (.obj [("b", .num 1), ("c", .num 2)]) [PathStep.key "a"]) ∧
    (∃ d2, NanoDB.merge (.obj [("a", .obj [("b", .num 1)])])
          (Tree.mk (.obj [("b", .num 1), ("c", .num 2)]) [PathStep.key "a"])
        = .ok d2 ∧
      navStore d2 "a" []
        = .ok ⟨(Tree.mk (.obj [("b", .num 1), ("c", .num 2)])
            [PathStep.key "a"]).inner, PathStep.key "a" :: []⟩) :=
  ⟨rfl, rfl,
    store_round_trip (.obj [("a", .obj [("b", .num 1)])]) "a" []
      (Tree.mk (.obj [("b", .num 1)]) [PathStep.key "a"]) "c" (.num 2)
      (Tree.mk (.obj [("b", .num 1), ("c", .num 2)]) [PathStep.key "a"])
      rfl rfl⟩

/-- C5 (code bug): `NanoDB::insert` calls
`data.as_object_mut().unwrap()`, so on a store whose root document is not
an Object it panics (embedded as `none`) instead of returning a typed
error, while `Tree::insert` on the same non-object value returns
`NotAnObject` as the claim describes. -/
theorem nanodb_insert_panics_on_non_object_root :
    NanoDB.insert (.arr [.num 1, .num 2, .num 3]) "k" .null = none ∧
    Tree.insert (Tree.mk (.arr [.num 1, .num 2, .num 3]) []) "k" .null
      = .error (.NotAnObject "k") :=
  ⟨rfl, rfl⟩

/-- C9: `Tree::len` returns the element count for an Array, the entry
count for an Object, and fails with `LenNotDefined` (carrying the tree's
path string) on every scalar kind. -/
theorem len_defined_for_containers_only :
    (∀ (t : Tree) (a : List Json), t.inner = .arr a → Tree.len t = .ok a.length) ∧
    (∀ (t : Tree) (m : List (String × Json)), t.inner = .obj m →
        Tree.len t = .ok m.length) ∧
    (∀ (t : Tree), t.inner = .null →
        Tree.len t = .error (.LenNotDefined t.pathString)) ∧
    (∀ (t : Tree) (b : Bool), t.inner = .bool b →
        Tree.len t = .error (.LenNotDefined t.pathString)) ∧
    (∀ (t : Tree) (n : Int), t.inner = .num n →
        Tree.len t = .error (.LenNotDefined t.pathString)) ∧
    (∀ (t : Tree) (s : String), t.inner = .str s →
        Tree.len t = .error (.LenNotDefined t.pathString)) := by
  refine ⟨?_, ?_, ?_, ?_, ?_, ?_⟩
  · intro t a h
    simp [Tree.len, h]
  · intro t m h
    simp [Tree.len, h]
  · intro t h
    simp [Tree.len, h]
  · intro t b h
    simp [Tree.len, h]
  · intro t n h
    simp [Tree.len, h]
  · intro t s h
    simp [Tree.len, h]

/-- Witness for C9: `len` on a one-element array, a one-entry object,
and each of the four scalar kinds. -/
theorem len_defined_for_containers_only_witness :
    (Tree.mk (.arr [.null]) []).inner = .arr [.null] ∧
    Tree.len (Tree.mk (.arr [.null]) []) = .ok ([Json.null].length) ∧
    (Tree.mk (.obj [("k", .null)]) []).inner = .obj [("k", .null)] ∧
    Tree.len (Tree.mk (.obj [("k", .null)]) []) = .ok ([("k", Json.null)].length) ∧
    (Tree.mk .null [PathStep.key "a"]).inner = .null ∧
    Tree.len (Tree.mk .null [PathStep.key "a"])
      = .error (.LenNotDefined (Tree.mk .null [PathStep.key "a"]).pathString) ∧
    (Tree.mk (.bool true) []).inner = .bool true ∧
    Tree.len (Tree.mk (.bool true) [])
      = .error (.LenNotDefined (Tree.mk (.bool true) []).pathString) ∧
    (Tree.mk (.num 7) []).inner = .num 7 ∧
    Tree.len (Tree.mk (.num 7) [])
      = .error (.LenNotDefined (Tree.mk (.num 7) []).pathString) ∧
    (Tree.mk (.str "s") []).inner = .str "s" ∧
    Tree.len (Tree.mk (.str "s") [])
      = .error (.LenNotDefined (Tree.mk (.str "s") []).pathString) :=
  ⟨rfl, len_defined_for_containers_only.1 _ [Json.null] rfl,
    rfl, len_defined_for_containers_only.2.1 _ [("k", Json.null)] rfl,
    rfl, len_defined_for_containers_only.2.2.1 _ rfl,
    rfl, len_defined_for_containers_only.2.2.2.1 _ true rfl,
    rfl, len_defined_for_containers_only.2.2.2.2.1 _ 7 rfl,
    rfl, len_defined_for_containers_only.2.2.2.2.2 _ "s" rfl⟩

end NanoDb
